import Mathlib

/-!
Verification development for the `bevy_remote` crate
(`src/crates/bevy_remote/src/lib.rs`): a JSON-RPC 2.0 style remote-control
protocol server.  The definitions below are a shallow embedding of the
protocol front end (`process_brp_batch`, `process_single_request`,
`validate_websocket_request`, `process_request`), the method registry
(`RemoteMethods`), and the tick-driven dispatcher
(`process_remote_requests`), translated from the Rust source.

External libraries are abstracted as follows: `serde_json::Value` becomes
the inductive `Json`; the `smol` channels become channel identifiers
(`Nat`) together with an environment telling which channels are closed,
and the events (`Event`) record every send that the dispatcher performs;
running a registered ECS system (`World::run_system_with_input`) becomes
an opaque behaviour function (`HandlerEnv`) from system id, parameters and
tick number to the handler outcome.
-/

set_option linter.unusedVariables false
set_option linter.unnecessarySeqFocus false

namespace BevyRemote

/-- Model of `serde_json::Value`.  Numbers are modelled as integers; no
claim depends on non-integral numeric payloads. -/
inductive Json where
  | null
  | bool (b : Bool)
  | num (n : Int)
  | str (s : String)
  | arr (elems : List Json)
  | obj (fields : List (String × Json))

/-- First field with the given key of a JSON object's field list
(`serde_json::Map::get`). -/
def getField : List (String × Json) → String → Option Json
  | [], _ => none
  | (k, v) :: rest, key => if k = key then some v else getField rest key

/-- Rust `value.as_object().and_then(|map| map.get(key))`. -/
def jsonLookup : Json → String → Option Json
  | .obj fields, key => getField fields key
  | _, _ => none

namespace error_codes

/-- Modelled from the spec: the `error_codes` module of the crate is not in
the sources; per the spec's fixed registry of error kinds these are the
JSON-RPC codes for "invalid request". -/
def INVALID_REQUEST : Int := -32600

/-- Modelled from the spec: the unknown-method error kind of the fixed
error registry (JSON-RPC "method not found"). -/
def METHOD_NOT_FOUND : Int := -32601

/-- Modelled from the spec: the handler-execution-fault error kind of the
fixed error registry (JSON-RPC "internal error"). -/
def INTERNAL_ERROR : Int := -32603

end error_codes

/-- Rust `struct BrpError { code: i16, message: String, data: Option<Value> }`. -/
structure BrpError where
  code : Int
  message : String
  data : Option Json

/-- Rust `type BrpResult = Result<Value, BrpError>`. -/
abbrev BrpResult := Except BrpError Json

/-- Rust `Result::is_err` on a `BrpResult`. -/
def brpIsErr : BrpResult → Bool
  | .ok _ => false
  | .error _ => true

/-- Rust `struct BrpRequest { jsonrpc, method, id, params }`. -/
structure BrpRequest where
  jsonrpc : String
  method : String
  id : Option Json
  params : Option Json

/-- Rust `enum BrpPayload { Result(Value), Error(BrpError) }` (serde-flattened
into the response with keys `result` / `error`). -/
inductive BrpPayload where
  | result (v : Json)
  | error (e : BrpError)

/-- Rust `impl From<BrpResult> for BrpPayload`. -/
def BrpPayload.ofResult : BrpResult → BrpPayload
  | .ok v => .result v
  | .error e => .error e

/-- Rust `struct BrpResponse { jsonrpc: &'static str, id: Option<Value>, payload }`. -/
structure BrpResponse where
  jsonrpc : String
  id : Option Json
  payload : BrpPayload

/-- Rust `BrpResponse::new(id, result)`. -/
def BrpResponse.new (id : Option Json) (result : BrpResult) : BrpResponse :=
  ⟨"2.0", id, BrpPayload.ofResult result⟩

/-- Rust untagged serde enum BrpBatch: Batch(Vec<Value>) or Single(Value). -/
inductive BrpBatch where
  | batch (requests : List Json)
  | single (request : Json)

/-- Deserialization of the untagged `BrpBatch` from an already-parsed JSON
value: serde tries `Batch(Vec<Value>)` first, which accepts exactly the
JSON arrays; `Single(Value)` then accepts anything else. -/
def decode_brp_batch : Json → BrpBatch
  | .arr requests => .batch requests
  | v => .single v

/-- An HTTP request body: either bytes that parse as JSON, or bytes that
are not valid JSON at all (carrying the serde error text). -/
inductive Body where
  | json (v : Json)
  | notJson (err : String)

/-- serde deserialization of an `Option<Value>` struct field: an absent
field and an explicit `null` both give `None`. -/
def parse_opt_field (fields : List (String × Json)) (key : String) : Option Json :=
  match getField fields key with
  | none => none
  | some .null => none
  | some v => some v

/-- Rust `serde_json::from_value::<BrpRequest>`: `jsonrpc` and `method` are
mandatory strings, `id` and `params` are optional values.  Error texts
stand in for the serde-generated messages. -/
def parse_brp_request (v : Json) : Except String BrpRequest :=
  match v with
  | .obj fields =>
    match getField fields "jsonrpc" with
    | some (.str ver) =>
      match getField fields "method" with
      | some (.str m) =>
          .ok ⟨ver, m, parse_opt_field fields "id", parse_opt_field fields "params"⟩
      | some _ => .error "invalid type for field `method`: expected a string"
      | none => .error "missing field `method`"
    | some _ => .error "invalid type for field `jsonrpc`: expected a string"
    | none => .error "missing field `jsonrpc`"
  | _ => .error "invalid type: expected a map for `BrpRequest`"

/-- The early id extraction of `process_single_request`:
`request.as_object().and_then(|map| map.get("id")).cloned()`. -/
def extract_id (request : Json) : Option Json :=
  jsonLookup request "id"

/-- A `BrpMessage` as enqueued into the mailbox, with the fresh response
channel abstracted away (the claims about enqueueing only need the method
and the params). -/
structure MailboxEntry where
  method : String
  params : Option Json

/-- Result of `process_single_request`: the assembled response envelope
together with the command messages the call pushed into the mailbox. -/
structure SingleOutcome where
  response : BrpResponse
  enqueued : List MailboxEntry

/-- Rust `process_single_request(request, request_sender)`.  The argument `env`
abstracts the value that eventually arrives on the freshly created
single-slot response channel, as a function of the enqueued method name
and params. -/
def process_single_request (env : String → Option Json → BrpResult)
    (request : Json) : SingleOutcome :=
  let id := extract_id request
  match parse_brp_request request with
  | .error err =>
      ⟨BrpResponse.new id (.error ⟨error_codes.INVALID_REQUEST, err, none⟩), []⟩
  | .ok req =>
    if req.jsonrpc ≠ "2.0" then
      ⟨BrpResponse.new id (.error ⟨error_codes.INVALID_REQUEST,
        "JSON-RPC request requires `\"jsonrpc\": \"2.0\"`", none⟩), []⟩
    else
      ⟨BrpResponse.new req.id (env req.method req.params), [⟨req.method, req.params⟩]⟩

/-- The serialized shape of the body produced by `process_brp_batch`: a
single response object, an array of response objects, or — on a body that
is not valid JSON — the bare serialized `BrpError` object. -/
inductive BatchOutput where
  | single (r : BrpResponse)
  | batch (rs : List BrpResponse)
  | topError (e : BrpError)

/-- Rust `process_brp_batch(bytes, request_sender)`. -/
def process_brp_batch (env : String → Option Json → BrpResult) :
    Body → BatchOutput
  | .json v =>
    match decode_brp_batch v with
    | .single request => .single (process_single_request env request).response
    | .batch requests =>
        .batch (requests.map fun request => (process_single_request env request).response)
  | .notJson err => .topError ⟨error_codes.INVALID_REQUEST, err, none⟩

/-- Serialization of `BrpError` (the `data` field is skipped when `None`). -/
def serialize_brp_error (e : BrpError) : Json :=
  .obj (("code", .num e.code) :: ("message", .str e.message) ::
    (match e.data with
     | none => []
     | some d => [("data", d)]))

/-- Serialization of `BrpResponse`: `id` has no skip attribute, so a `None`
id serializes as JSON `null`; the payload flattens to a `result` or
`error` member. -/
def serialize_brp_response (r : BrpResponse) : Json :=
  .obj [("jsonrpc", .str r.jsonrpc), ("id", r.id.getD .null),
    (match r.payload with
     | .result v => ("result", v)
     | .error e => ("error", serialize_brp_error e))]

/-- Serialization of the full HTTP body answered by `process_brp_batch`. -/
def serialize_batch_output : BatchOutput → Json
  | .single r => serialize_brp_response r
  | .batch rs => .arr (rs.map serialize_brp_response)
  | .topError e => serialize_brp_error e

/-- Rust `enum RemoteMethod { Normal(SystemId<..>), Stream(SystemId<..>) }`
with the registered system ids modelled as naturals. -/
inductive RemoteMethod where
  | normal (sys : Nat)
  | stream (sys : Nat)
  deriving DecidableEq

/-- Rust `HashMap::get` on the method table, modelled as an association list. -/
def methods_get : List (String × RemoteMethod) → String → Option RemoteMethod
  | [], _ => none
  | (k, v) :: rest, name => if k = name then some v else methods_get rest name

/-- Rust `HashMap::insert` on the method table: replaces the entry for an
existing key, otherwise appends. -/
def methods_insert : List (String × RemoteMethod) → String → RemoteMethod →
    List (String × RemoteMethod)
  | [], name, handler => [(name, handler)]
  | (k, v) :: rest, name, handler =>
    if k = name then (name, handler) :: rest
    else (k, v) :: methods_insert rest name handler

/-- Rust `struct RemoteMethods(HashMap<String, RemoteMethod>)`. -/
structure RemoteMethods where
  methods : List (String × RemoteMethod)

/-- Rust `methods.0.get(&name)`. -/
def RemoteMethods.get (m : RemoteMethods) (name : String) : Option RemoteMethod :=
  methods_get m.methods name

/-- Rust `RemoteMethods::insert(method_name, handler)`: the updated table
together with the returned previous handler (`HashMap::insert`'s result). -/
def RemoteMethods.insert (m : RemoteMethods) (name : String)
    (handler : RemoteMethod) : RemoteMethods × Option RemoteMethod :=
  (⟨methods_insert m.methods name handler⟩, methods_get m.methods name)

/-- One hexadecimal digit, as used by percent-decoding. -/
def hex_val (c : Char) : Option Nat :=
  if '0' ≤ c ∧ c ≤ '9' then some (c.toNat - '0'.toNat)
  else if 'a' ≤ c ∧ c ≤ 'f' then some (c.toNat - 'a'.toNat + 10)
  else if 'A' ≤ c ∧ c ≤ 'F' then some (c.toNat - 'A'.toNat + 10)
  else none

/-- Rust `urlencoding::decode` (an external crate): percent-escapes are decoded,
malformed escapes are passed through unchanged. -/
def percent_decode_chars : List Char → List Char
  | [] => []
  | '%' :: a :: b :: rest =>
    match hex_val a, hex_val b with
    | some x, some y => Char.ofNat (16 * x + y) :: percent_decode_chars rest
    | _, _ => '%' :: percent_decode_chars (a :: b :: rest)
  | c :: rest => c :: percent_decode_chars rest

/-- Rust `urlencoding::decode` on a string. -/
def percent_decode (s : String) : String :=
  String.mk (percent_decode_chars s.data)

/-- Rust `str::split(sep)` on a character list. -/
def split_char (sep : Char) : List Char → List (List Char)
  | [] => [[]]
  | c :: rest =>
    if c = sep then [] :: split_char sep rest
    else
      match split_char sep rest with
      | h :: t => (c :: h) :: t
      | [] => [[c]]

/-- The simple query-string parsing of `validate_websocket_request`:
split on `&`, split each pair on `=` keeping the first two pieces
(`split('=').take(2)`), skip pairs without a `=`. -/
def parse_query_pairs (query : String) : List (String × String) :=
  (split_char '&' query.data).filterMap fun pair =>
    match split_char '=' pair with
    | k :: v :: _ => some (String.mk k, String.mk v)
    | _ => none

/-- Rust `HashMap::insert` for the query map (later pairs override earlier
ones). -/
def assoc_insert_str : List (String × String) → String → String →
    List (String × String)
  | [], k, v => [(k, v)]
  | (k', v') :: rest, k, v =>
    if k' = k then (k, v) :: rest else (k', v') :: assoc_insert_str rest k v

/-- First entry with the given key of the query map. -/
def assoc_get_str : List (String × String) → String → Option String
  | [], _ => none
  | (k', v) :: rest, k => if k' = k then some v else assoc_get_str rest k

/-- The query → `body` parameter extraction of
`validate_websocket_request`: build the query map, then look up `body`. -/
def query_body (query : Option String) : Option String :=
  match query with
  | none => none
  | some q =>
    assoc_get_str
      ((parse_query_pairs q).foldl (fun acc kv => assoc_insert_str acc kv.1 kv.2) [])
      "body"

/-- Rust `validate_websocket_request(request)`.  The argument `jsonParse`
abstracts `serde_json::from_str` producing a JSON value from the decoded
body text (failing exactly on invalid JSON). -/
def validate_websocket_request (jsonParse : String → Except String Json)
    (query : Option String) : Except String BrpRequest :=
  match query_body query with
  | none => .error "Missing body"
  | some b =>
    match jsonParse (percent_decode b) with
    | .error err => .error err
    | .ok v =>
      match decode_brp_batch v with
      | .batch _ => .error "Batch requests are not supported for streaming"
      | .single value =>
        match parse_brp_request value with
        | .ok req =>
          if req.jsonrpc ≠ "2.0" then
            .error "JSON-RPC request requires `\"jsonrpc\": \"2.0\"`"
          else .ok req
        | .error err => .error err

/-- An incoming HTTP request as seen by `process_request`: whether it is a
WebSocket upgrade request, its query string, and its body. -/
structure HttpRequest where
  is_upgrade : Bool
  query : Option String
  body : Body

/-- What `process_request` does with a connection: either it answers with
a plain HTTP response carrying the given JSON body, or it completes the
WebSocket handshake and spawns `process_brp_websocket` on the validated
request. -/
inductive RequestOutcome where
  | httpResponse (body : Json)
  | wsAccepted (req : BrpRequest)

/-- Rust `process_request(request, request_sender)`. On an upgrade request whose
validation fails, the serialized bare `BrpError` is returned as the body
of the plain HTTP response (`Response::new(Full::new(...))`). -/
def process_request (jsonParse : String → Except String Json)
    (env : String → Option Json → BrpResult) (r : HttpRequest) : RequestOutcome :=
  if r.is_upgrade then
    match validate_websocket_request jsonParse r.query with
    | .error err =>
        .httpResponse (serialize_brp_error ⟨error_codes.INVALID_REQUEST, err, none⟩)
    | .ok req => .wsAccepted req
  else
    .httpResponse (serialize_batch_output (process_brp_batch env r.body))

/-- Rust `process_brp_websocket(websocket, request_sender, request)`: every
result received on the response channel before it closes is sent as one
text frame containing the serialized response envelope. -/
def process_brp_websocket (id : Option Json) (received : List BrpResult) : List Json :=
  received.map fun result => serialize_brp_response (BrpResponse.new id result)

/-- The text frames the server sends on the (would-be) WebSocket for a
given connection outcome, given the results later received on the response
channel: none at all unless the handshake was completed. -/
def frames_of : RequestOutcome → List BrpResult → List Json
  | .httpResponse _, _ => []
  | .wsAccepted req, received => process_brp_websocket req.id received

/-- A `BrpMessage` as drained by the dispatcher: method, params, and the
response channel, the latter modelled by a channel identifier. -/
structure BrpMessage where
  method : String
  params : Option Json
  channel : Nat

/-- The `ActiveStream(BrpMessage, RemoteMethod)` component.  The component
only ever stores the `RemoteMethod::Stream` variant (the other arm of the
poll pass is `unreachable!()`), so the embedding stores the stream's
system id directly, together with the entity the record was spawned on. -/
structure ActiveStream where
  entity : Nat
  message : BrpMessage
  sys : Nat

/-- The dispatcher-relevant world state: the entity id allocator and the
set of live `ActiveStream` components. -/
structure TickState where
  nextEntity : Nat
  streams : List ActiveStream

/-- Opaque behaviour of registered handler systems:
`run_system_with_input(system_id, params)` for normal and streaming
systems, as a function of the system id, the params, and the tick number
(the latter standing for the evolving world state).  An `Except.error`
outcome models the run itself faulting. -/
structure HandlerEnv where
  runNormal : Nat → Option Json → Nat → Except String BrpResult
  runStream : Nat → Option Json → Nat → Except String (Option BrpResult)

/-- Everything observable the dispatcher does in one tick: results pushed
on response channels (successful or failed because the channel was
closed), streaming-handler invocations, subscription records spawned and
despawned. -/
inductive Event where
  | sent (channel : Nat) (value : BrpResult)
  | sendFailed (channel : Nat) (value : BrpResult)
  | invoked (entity : Nat) (sys : Nat)
  | spawned (entity : Nat)
  | removed (entity : Nat)

/-- Is this event the invocation of the streaming handler of the record on
entity `e` with system `sys`? -/
def Event.isInvokedOf (e sys : Nat) : Event → Bool
  | .invoked e' sys' => e' == e && sys' == sys
  | _ => false

/-- The value this event delivers on channel `ch`, if it is a successful
send on that channel. -/
def Event.deliveredTo (ch : Nat) : Event → Option BrpResult
  | .sent ch' v => if ch' = ch then some v else none
  | _ => none

/-- Rust `sender.send_blocking(value)`: delivery succeeds unless the receiving
side of the channel is gone. -/
def send_blocking (closed : Nat → Bool) (ch : Nat) (value : BrpResult) : Event :=
  if closed ch then .sendFailed ch value else .sent ch value

/-- The body of the mailbox-drain loop of `process_remote_requests`, for
one drained message: resolve the handler, answer method-not-found, run a
normal handler and push its result (or an internal error on a fault), or
spawn an `ActiveStream` record for a streaming handler without running
anything yet. -/
def process_message (methods : RemoteMethods) (env : HandlerEnv)
    (closed : Nat → Bool) (t : Nat) (s : TickState) (msg : BrpMessage) :
    List Event × TickState :=
  match methods.get msg.method with
  | none =>
      ([send_blocking closed msg.channel (.error ⟨error_codes.METHOD_NOT_FOUND,
        "Method `" ++ msg.method ++ "` not found", none⟩)], s)
  | some (.normal sys) =>
    match env.runNormal sys msg.params t with
    | .error e =>
        ([send_blocking closed msg.channel (.error ⟨error_codes.INTERNAL_ERROR,
          "Failed to run method handler: " ++ e, none⟩)], s)
    | .ok result => ([send_blocking closed msg.channel result], s)
  | some (.stream sys) =>
      ([.spawned s.nextEntity],
       ⟨s.nextEntity + 1, s.streams ++ [⟨s.nextEntity, msg, sys⟩]⟩)

/-- The full mailbox-drain loop, over the messages currently queued. -/
def drain (methods : RemoteMethods) (env : HandlerEnv) (closed : Nat → Bool)
    (t : Nat) : TickState → List BrpMessage → List Event × TickState
  | s, [] => ([], s)
  | s, msg :: rest =>
    let r := process_message methods env closed t s msg
    let r' := drain methods env closed t r.2 rest
    (r.1 ++ r'.1, r'.2)

/-- One iteration of the subscription poll pass of
`process_remote_requests`: invoke the streaming handler once; on a fault
push an internal error and mark the record for removal; on `None` do
nothing; on a yielded result push it and mark the record for removal
exactly when the result is an error or the push failed because the
channel closed. -/
def poll_stream (env : HandlerEnv) (closed : Nat → Bool) (t : Nat)
    (rec : ActiveStream) : List Event × Bool :=
  match env.runStream rec.sys rec.message.params t with
  | .error e =>
      ([.invoked rec.entity rec.sys,
        send_blocking closed rec.message.channel (.error ⟨error_codes.INTERNAL_ERROR,
          "Failed to run method handler: " ++ e, none⟩)], true)
  | .ok none => ([.invoked rec.entity rec.sys], false)
  | .ok (some result) =>
      ([.invoked rec.entity rec.sys,
        send_blocking closed rec.message.channel result],
       brpIsErr result || closed rec.message.channel)

/-- The entities the poll pass despawns (`to_remove`).  `poll_stream` is a
pure function, so re-applying it here yields the very outcomes whose
events `pollEvents` collects. -/
def pollRemovals (env : HandlerEnv) (closed : Nat → Bool) (t : Nat)
    (streams : List ActiveStream) : List Nat :=
  streams.filterMap fun rec =>
    if (poll_stream env closed t rec).2 then some rec.entity else none

/-- The events of the poll pass, in iteration order. -/
def pollEvents (env : HandlerEnv) (closed : Nat → Bool) (t : Nat)
    (streams : List ActiveStream) : List Event :=
  (streams.map fun rec => (poll_stream env closed t rec).1).flatten

/-- One invocation of the `process_remote_requests` system (one tick):
drain the mailbox, then poll every live subscription record — including
the ones just created — once, then despawn the terminated records. -/
def process_remote_requests (methods : RemoteMethods) (env : HandlerEnv)
    (closed : Nat → Bool) (t : Nat) (incoming : List BrpMessage)
    (s : TickState) : List Event × TickState :=
  let d := drain methods env closed t s incoming
  let toRemove := pollRemovals env closed t d.2.streams
  (d.1 ++ pollEvents env closed t d.2.streams ++ toRemove.map Event.removed,
   ⟨d.2.nextEntity, d.2.streams.filter fun rec => !toRemove.contains rec.entity⟩)

/-- The environment driving a multi-tick run: the messages drained from
the mailbox at each tick, and which response channels are closed (their
receiving ends dropped) at each tick. -/
structure Schedule where
  incoming : Nat → List BrpMessage
  closed : Nat → Nat → Bool

/-- The world state before tick `t` of a run of `process_remote_requests`
from initial state `s₀`. -/
def runFrom (methods : RemoteMethods) (env : HandlerEnv) (sch : Schedule)
    (s₀ : TickState) : Nat → TickState
  | 0 => s₀
  | t + 1 =>
    (process_remote_requests methods env (sch.closed t) t (sch.incoming t)
      (runFrom methods env sch s₀ t)).2

/-- The events of tick `t` of that run. -/
def tickEvents (methods : RemoteMethods) (env : HandlerEnv) (sch : Schedule)
    (s₀ : TickState) (t : Nat) : List Event :=
  (process_remote_requests methods env (sch.closed t) t (sch.incoming t)
    (runFrom methods env sch s₀ t)).1

/-- The terminal condition of a subscription record at tick `t` given the
channel-closure state `closed`: the handler faults, or it yields a result
that is an error or whose delivery fails because the channel is closed.
Yielding nothing is never terminal. -/
def terminalB (env : HandlerEnv) (closed : Nat → Bool) (rec : ActiveStream)
    (t : Nat) : Bool :=
  match env.runStream rec.sys rec.message.params t with
  | .error _ => true
  | .ok none => false
  | .ok (some result) => brpIsErr result || closed rec.message.channel

/-- No terminal condition for `rec` occurred at any tick before `t`. -/
def aliveUpTo (env : HandlerEnv) (sch : Schedule) (rec : ActiveStream)
    (t : Nat) : Prop :=
  ∀ u, u < t → terminalB env (sch.closed u) rec u = false

/-- Well-formedness of the dispatcher world state: every live record sits
on an already-allocated entity, and no two records share an entity. -/
def WF (s : TickState) : Prop :=
  (∀ r ∈ s.streams, r.entity < s.nextEntity) ∧
    (s.streams.map ActiveStream.entity).Nodup

/-- No record other than `rec` itself lives on `rec`'s entity. -/
def UniqueFor (s : TickState) (rec : ActiveStream) : Prop :=
  ∀ r ∈ s.streams, r.entity = rec.entity → r = rec

/-! Concrete instances used by the scenario conjuncts and the concrete
evaluations below. -/

/-- A channel environment at which the response ends of all channels are
still alive. -/
def noChannelsClosed : Nat → Bool := fun _ => false

/-- A result environment answering every command with a success. -/
def okEnv : String → Option Json → BrpResult := fun _ _ => .ok (.str "pong")

/-- A body that is not valid JSON (for example the bytes `{`), with the
serde error text it produces. -/
def badBody : Body := .notJson "expected value at line 1 column 1"

/-- A JSON parser stub for paths on which no parsing happens. -/
def dummyParse : String → Except String Json := fun _ => .error "no parse attempted"

/-- A JSON parser knowing only the text of the empty array. -/
def tinyParse : String → Except String Json := fun s =>
  if s = "[]" then .ok (.arr []) else .error "unsupported"

/-- A WebSocket upgrade request with no query string at all. -/
def wsBadRequest : HttpRequest := ⟨true, none, .json .null⟩

/-- A request whose `jsonrpc` field is present but `"1.0"`. -/
def req_v1 : Json :=
  .obj [("jsonrpc", .str "1.0"), ("method", .str "ping"), ("id", .num 1)]

/-- A well-formed version-`"2.0"` request. -/
def req_ping : Json :=
  .obj [("jsonrpc", .str "2.0"), ("method", .str "ping"), ("id", .num 1)]

/-- A registry with a single normal method registered under `"a"`. -/
def regSample : RemoteMethods := ⟨[("a", .normal 1)]⟩

/-- The empty registry. -/
def emptyMethods : RemoteMethods := ⟨[]⟩

/-- A handler environment in which every normal run faults and every
streaming run yields nothing. -/
def dummyHandlerEnv : HandlerEnv := ⟨fun _ _ _ => .error "fault", fun _ _ _ => .ok none⟩

/-- The dispatcher world state before any request was seen. -/
def emptyState : TickState := ⟨0, []⟩

/-- A command message calling an unregistered method on channel 2. -/
def nfMsg : BrpMessage := ⟨"nope", none, 2⟩

/-- The registry of a run whose only method is one streaming method. -/
def singleStreamMethods (name : String) (sys : Nat) : RemoteMethods :=
  ⟨[(name, .stream sys)]⟩

/-- The schedule of an HTTP streaming call: the one command message
arrives at tick 0, and all response channels close right after tick `T`
(the single-slot receiver takes the one delivered value and is dropped). -/
def singleStreamSchedule (name : String) (p : Option Json) (ch T : Nat) : Schedule :=
  ⟨fun t => if t = 0 then [⟨name, p, ch⟩] else [], fun t _ => decide (T < t)⟩

/-- The message of the C4 scenario: method `"watch"`, channel 9. -/
def watchMsg : BrpMessage := ⟨"watch", none, 9⟩

/-- The handler environment of the C4 scenario: the streaming system 7
yields nothing on the first two ticks and a success on the third. -/
def watchEnv : HandlerEnv :=
  ⟨fun _ _ _ => .error "no normal handler",
   fun _ _ t => if t < 2 then .ok none
     else if t = 2 then .ok (some (.ok (.str "v"))) else .ok none⟩

/-- The schedule of the C4 scenario: the `"watch"` call arrives at tick 0
and its client never disconnects. -/
def watchSchedule : Schedule :=
  ⟨fun t => if t = 0 then [watchMsg] else [], fun _ _ => false⟩

/-- A subscription record used for concrete evaluations: entity 0,
method `"m"`, channel 3, streaming system 5. -/
def c3rec : ActiveStream := ⟨0, ⟨"m", none, 3⟩, 5⟩

/-- A world state holding exactly that record. -/
def c3state : TickState := ⟨1, [c3rec]⟩

/-- A handler environment whose streaming system yields nothing at tick 0
and faults from tick 1 on. -/
def c3env : HandlerEnv :=
  ⟨fun _ _ _ => .error "no normal handler",
   fun _ _ t => if t = 0 then .ok none else .error "boom"⟩

/-- A schedule with no arrivals and no disconnections. -/
def c3sch : Schedule := ⟨fun _ => [], fun _ _ => false⟩

/-- The handler environment of the C10 concrete evaluation: the streaming
system yields nothing at tick 0 and the success `5` from tick 1 on. -/
def c10env : HandlerEnv :=
  ⟨fun _ _ _ => .error "no normal handler",
   fun _ _ t => if t = 0 then .ok none else .ok (some (.ok (.num 5)))⟩

/-! Section: Registry lemmas -/

theorem methods_get_insert_self (l : List (String × RemoteMethod)) (name : String)
    (h : RemoteMethod) : methods_get (methods_insert l name h) name = some h := by
  induction l with
  | nil => simp [methods_insert, methods_get]
  | cons kv rest ih =>
    obtain ⟨k, v⟩ := kv
    by_cases hk : k = name
    · simp [methods_insert, methods_get, hk]
    · simp [methods_insert, methods_get, hk, ih]

theorem methods_get_insert_ne (l : List (String × RemoteMethod)) (name other : String)
    (h : RemoteMethod) (hne : other ≠ name) :
    methods_get (methods_insert l name h) other = methods_get l other := by
  induction l with
  | nil => simp [methods_insert, methods_get, Ne.symm hne]
  | cons kv rest ih =>
    obtain ⟨k, v⟩ := kv
    by_cases hk : k = name
    · subst hk
      simp [methods_insert, methods_get, Ne.symm hne]
    · simp [methods_insert, methods_get, hk, ih]

/-- C9: `RemoteMethods::insert` overwrites any existing handler for the
name and returns the previous handler if one was present (`None`
otherwise); it leaves every other name untouched, and registering the
same name twice keeps only the latest handler, with the second insert
returning the first handler. -/
theorem insert_overwrites_and_returns_previous (m : RemoteMethods) (name : String)
    (h : RemoteMethod) :
    (m.insert name h).2 = m.get name ∧
    (m.insert name h).1.get name = some h ∧
    (∀ other, other ≠ name → (m.insert name h).1.get other = m.get other) ∧
    (∀ h2 : RemoteMethod,
      ((m.insert name h).1.insert name h2).1.get name = some h2 ∧
      ((m.insert name h).1.insert name h2).2 = some h) := by
  refine ⟨rfl, methods_get_insert_self m.methods name h, ?_, ?_⟩
  · intro other hne
    exact methods_get_insert_ne m.methods name other h hne
  · intro h2
    exact ⟨methods_get_insert_self _ name h2, methods_get_insert_self m.methods name h⟩

/-- Witness for C9 at a concrete registry: inserting over `"a"` returns
the previously registered handler and does not disturb the (absent)
entry `"b"`. -/
theorem insert_overwrites_and_returns_previous_witness :
    (regSample.insert "a" (RemoteMethod.normal 2)).2 = some (RemoteMethod.normal 1) ∧
    (regSample.insert "a" (RemoteMethod.normal 2)).1.get "b" = none := by
  have t := insert_overwrites_and_returns_previous regSample "a" (RemoteMethod.normal 2)
  exact ⟨t.1.trans rfl, (t.2.2.1 "b" (by decide)).trans rfl⟩

/-! Section: Protocol front end: single requests and batches -/

/-- C6: a request whose `jsonrpc` field parses but differs from `"2.0"`
is answered with the early-extracted `id` echoed and an invalid-request
error, and neither a version mismatch nor an envelope parse failure
enqueues anything into the mailbox. -/
theorem version_mismatch_response_and_no_enqueue :
    (∀ (env : String → Option Json → BrpResult) (j : Json) (req : BrpRequest),
      parse_brp_request j = .ok req → req.jsonrpc ≠ "2.0" →
      process_single_request env j =
        ⟨BrpResponse.new (extract_id j) (.error ⟨error_codes.INVALID_REQUEST,
          "JSON-RPC request requires `\"jsonrpc\": \"2.0\"`", none⟩), []⟩) ∧
    (∀ (env : String → Option Json → BrpResult) (j : Json) (e : String),
      parse_brp_request j = .error e →
      process_single_request env j =
        ⟨BrpResponse.new (extract_id j) (.error ⟨error_codes.INVALID_REQUEST, e, none⟩),
          []⟩) := by
  constructor
  · intro env j req hp hv
    simp [process_single_request, hp, hv]
  · intro env j e hp
    simp [process_single_request, hp]

/-- Witness for C6: the request `{"jsonrpc":"1.0","method":"ping","id":1}`
is answered with id `1` echoed and the invalid-request error, and nothing
is enqueued. -/
theorem version_mismatch_response_and_no_enqueue_witness :
    process_single_request okEnv req_v1 =
      ⟨BrpResponse.new (some (Json.num 1)) (.error ⟨error_codes.INVALID_REQUEST,
        "JSON-RPC request requires `\"jsonrpc\": \"2.0\"`", none⟩), []⟩ :=
  (version_mismatch_response_and_no_enqueue.1 okEnv req_v1
    ⟨"1.0", "ping", some (.num 1), none⟩ rfl (by decide)).trans rfl

/-- C7: for every single request that parses with version `"2.0"`, the
response envelope carries exactly the request's `id`, whatever result or
error the handler eventually produces. -/
theorem response_id_echoes_request_id (env : String → Option Json → BrpResult)
    (j : Json) (req : BrpRequest) (hp : parse_brp_request j = .ok req)
    (hv : req.jsonrpc = "2.0") :
    (process_single_request env j).response.id = req.id ∧
    process_single_request env j =
      ⟨BrpResponse.new req.id (env req.method req.params), [⟨req.method, req.params⟩]⟩ := by
  have h : process_single_request env j =
      ⟨BrpResponse.new req.id (env req.method req.params), [⟨req.method, req.params⟩]⟩ := by
    simp [process_single_request, hp, hv]
  exact ⟨by rw [h]; rfl, h⟩

/-- Witness for C7: the `ping` request with id `1` gets a response with id
`1`. -/
theorem response_id_echoes_request_id_witness :
    (process_single_request okEnv req_ping).response.id = some (Json.num 1) :=
  (response_id_echoes_request_id okEnv req_ping ⟨"2.0", "ping", some (.num 1), none⟩
    rfl rfl).1.trans rfl

/-- C5: a body decoding to a batch array of `N` elements is answered by an
array of exactly `N` response envelopes in input order; entry `k` is a
function of input element `k` alone, a malformed element `k` produces an
invalid-request error entry at position `k`, and the empty batch produces
the empty array. -/
theorem batch_response_length_order_independence
    (env : String → Option Json → BrpResult) (xs : List Json) :
    ∃ rs : List BrpResponse,
      process_brp_batch env (.json (.arr xs)) = .batch rs ∧
      rs.length = xs.length ∧
      (∀ (k : Nat) (h1 : k < rs.length) (h2 : k < xs.length),
        rs[k] = (process_single_request env xs[k]).response) ∧
      (∀ (k : Nat) (h2 : k < xs.length) (e : String) (h1 : k < rs.length),
        parse_brp_request xs[k] = .error e →
        rs[k] = BrpResponse.new (extract_id xs[k])
          (.error ⟨error_codes.INVALID_REQUEST, e, none⟩)) ∧
      (xs = [] → rs = []) := by
  refine ⟨xs.map fun request => (process_single_request env request).response,
    rfl, by simp, ?_, ?_, by rintro rfl; rfl⟩
  · intro k h1 h2
    simp
  · intro k h2 e h1 hpe
    simp [process_single_request, hpe]

/-- Witness for C5: the empty batch array is answered with the empty
array. -/
theorem batch_response_length_order_independence_witness :
    process_brp_batch okEnv (.json (.arr [])) = .batch [] := by
  obtain ⟨rs, h1, -, -, -, h5⟩ := batch_response_length_order_independence okEnv []
  rw [h5 rfl] at h1
  exact h1

/-- C1 (the code as written): a body that is not valid JSON is answered by
the bare serialized `BrpError` object — carrying the invalid-request code,
but with no `id` (and no `jsonrpc`) member at all, rather than a response
envelope with a null `id`. -/
theorem unparsable_body_response_is_bare_error_object :
    process_brp_batch okEnv badBody =
      .topError ⟨error_codes.INVALID_REQUEST, "expected value at line 1 column 1", none⟩ ∧
    jsonLookup (serialize_batch_output (process_brp_batch okEnv badBody)) "id" = none ∧
    jsonLookup (serialize_batch_output (process_brp_batch okEnv badBody)) "jsonrpc" = none :=
  ⟨rfl, rfl, rfl⟩

/-! Section: WebSocket upgrade path -/

/-- C2 counterexample: for a WebSocket upgrade request with a malformed
setup (here: no `body` query parameter at all), the error is returned in
the body of a plain HTTP response, and no WebSocket text frame is ever
sent on this connection — contradicting the claim that the error arrives
as an immediate text frame. -/
theorem ws_malformed_error_not_sent_as_text_frame :
    process_request dummyParse okEnv wsBadRequest =
      .httpResponse (serialize_brp_error ⟨error_codes.INVALID_REQUEST, "Missing body", none⟩) ∧
    frames_of (process_request dummyParse okEnv wsBadRequest)
      [.error ⟨error_codes.INVALID_REQUEST, "Missing body", none⟩] = [] :=
  ⟨rfl, rfl⟩

/-- C2 (amended): for every upgrade request whose embedded envelope fails
validation — including every batch, which this transport always rejects —
the server answers the handshake with a plain HTTP response whose body is
the serialized error object with the invalid-request code, the handshake
is never completed, and no text frame is sent. -/
theorem ws_malformed_error_sent_as_http_body :
    (∀ (jsonParse : String → Except String Json)
      (env : String → Option Json → BrpResult) (q : Option String) (b : Body)
      (e : String),
      validate_websocket_request jsonParse q = .error e →
      process_request jsonParse env ⟨true, q, b⟩ =
        .httpResponse (serialize_brp_error ⟨error_codes.INVALID_REQUEST, e, none⟩) ∧
      ∀ received, frames_of (process_request jsonParse env ⟨true, q, b⟩) received = []) ∧
    (∀ (jsonParse : String → Except String Json) (qs bodyParam : String)
      (xs : List Json),
      query_body (some qs) = some bodyParam →
      jsonParse (percent_decode bodyParam) = .ok (.arr xs) →
      validate_websocket_request jsonParse (some qs) =
        .error "Batch requests are not supported for streaming") := by
  constructor
  · intro jsonParse env q b e hv
    constructor
    · simp [process_request, hv]
    · intro received
      simp [process_request, hv, frames_of]
  · intro jsonParse qs bodyParam xs hq hp
    simp [validate_websocket_request, hq, hp, decode_brp_batch]

/-- Witness for the amended C2: the upgrade request carrying the batch
`body=%5B%5D` (the URL-encoded empty array) is rejected as invalid for
this transport and answered over plain HTTP, with no frame sent. -/
theorem ws_malformed_error_sent_as_http_body_witness :
    validate_websocket_request tinyParse (some "body=%5B%5D") =
      .error "Batch requests are not supported for streaming" ∧
    process_request tinyParse okEnv ⟨true, some "body=%5B%5D", .json .null⟩ =
      .httpResponse (serialize_brp_error ⟨error_codes.INVALID_REQUEST,
        "Batch requests are not supported for streaming", none⟩) ∧
    frames_of (process_request tinyParse okEnv ⟨true, some "body=%5B%5D", .json .null⟩)
      [.ok .null] = [] := by
  have hbatch := ws_malformed_error_sent_as_http_body.2 tinyParse "body=%5B%5D" "%5B%5D" []
    rfl rfl
  have hmain := ws_malformed_error_sent_as_http_body.1 tinyParse okEnv
    (some "body=%5B%5D") (.json .null) "Batch requests are not supported for streaming"
    hbatch
  exact ⟨hbatch, hmain.1, hmain.2 [.ok .null]⟩

/-! Section: Dispatcher: unknown methods -/

/-- C8: a drained command message whose method has no registered handler
is answered by exactly one push on its response channel, carrying the
method-not-found error whose message names the method, and every value
the dispatcher ever attempts to deliver for it is an error, never a
success. -/
theorem unknown_method_yields_method_not_found (M : RemoteMethods) (env : HandlerEnv)
    (closed : Nat → Bool) (t : Nat) (s : TickState) (msg : BrpMessage)
    (hnf : M.get msg.method = none) :
    process_message M env closed t s msg =
      ([send_blocking closed msg.channel (.error ⟨error_codes.METHOD_NOT_FOUND,
        "Method `" ++ msg.method ++ "` not found", none⟩)], s) ∧
    ((process_message M env closed t s msg).1.filterMap
      (Event.deliveredTo msg.channel)).all brpIsErr = true := by
  have h1 : process_message M env closed t s msg =
      ([send_blocking closed msg.channel (.error ⟨error_codes.METHOD_NOT_FOUND,
        "Method `" ++ msg.method ++ "` not found", none⟩)], s) := by
    simp [process_message, hnf]
  refine ⟨h1, ?_⟩
  rw [h1]
  by_cases hc : closed msg.channel <;>
    simp [send_blocking, hc, Event.deliveredTo, brpIsErr]

/-- Witness for C8: calling the unregistered method `"nope"` against the
empty registry pushes the method-not-found error naming it. -/
theorem unknown_method_yields_method_not_found_witness :
    process_message emptyMethods dummyHandlerEnv noChannelsClosed 0 emptyState nfMsg =
      ([Event.sent 2 (.error ⟨error_codes.METHOD_NOT_FOUND,
        "Method `nope` not found", none⟩)], emptyState) :=
  (unknown_method_yields_method_not_found emptyMethods dummyHandlerEnv noChannelsClosed
    0 emptyState nfMsg rfl).1.trans rfl

/-! Section: Dispatcher lemmas: events and the drain pass -/

theorem send_blocking_cases (closed : Nat → Bool) (ch : Nat) (v : BrpResult) :
    send_blocking closed ch v = .sent ch v ∨ send_blocking closed ch v = .sendFailed ch v := by
  unfold send_blocking
  split
  · exact Or.inr rfl
  · exact Or.inl rfl

theorem mem_process_message_events (M : RemoteMethods) (env : HandlerEnv)
    (closed : Nat → Bool) (t : Nat) (s : TickState) (msg : BrpMessage) (ev : Event)
    (hev : ev ∈ (process_message M env closed t s msg).1) :
    (∃ v, ev = .sent msg.channel v) ∨ (∃ v, ev = .sendFailed msg.channel v) ∨
      ev = .spawned s.nextEntity := by
  unfold process_message at hev
  split at hev
  · simp at hev
    subst hev
    rcases send_blocking_cases closed msg.channel _ with h | h
    · exact Or.inl ⟨_, h⟩
    · exact Or.inr (Or.inl ⟨_, h⟩)
  · split at hev <;> simp at hev <;> subst hev <;>
      rcases send_blocking_cases closed msg.channel _ with h | h
    · exact Or.inl ⟨_, h⟩
    · exact Or.inr (Or.inl ⟨_, h⟩)
    · exact Or.inl ⟨_, h⟩
    · exact Or.inr (Or.inl ⟨_, h⟩)
  · simp at hev
    subst hev
    exact Or.inr (Or.inr rfl)

theorem process_message_state (M : RemoteMethods) (env : HandlerEnv)
    (closed : Nat → Bool) (t : Nat) (s : TickState) (msg : BrpMessage) :
    (process_message M env closed t s msg).2 = s ∨
    ∃ sys, (process_message M env closed t s msg).2 =
      ⟨s.nextEntity + 1, s.streams ++ [⟨s.nextEntity, msg, sys⟩]⟩ := by
  unfold process_message
  split
  · exact Or.inl rfl
  · split
    · exact Or.inl rfl
    · exact Or.inl rfl
  · exact Or.inr ⟨_, rfl⟩

theorem process_message_stream (M : RemoteMethods) (env : HandlerEnv)
    (closed : Nat → Bool) (t : Nat) (s : TickState) (msg : BrpMessage) (sys : Nat)
    (hstream : M.get msg.method = some (.stream sys)) :
    process_message M env closed t s msg =
      ([.spawned s.nextEntity],
       ⟨s.nextEntity + 1, s.streams ++ [⟨s.nextEntity, msg, sys⟩]⟩) := by
  simp [process_message, hstream]

theorem process_message_nextEntity_mono (M : RemoteMethods) (env : HandlerEnv)
    (closed : Nat → Bool) (t : Nat) (s : TickState) (msg : BrpMessage) :
    s.nextEntity ≤ (process_message M env closed t s msg).2.nextEntity := by
  rcases process_message_state M env closed t s msg with h | ⟨sys, h⟩ <;> rw [h] <;> simp

theorem drain_cons (M : RemoteMethods) (env : HandlerEnv) (closed : Nat → Bool)
    (t : Nat) (s : TickState) (msg : BrpMessage) (rest : List BrpMessage) :
    drain M env closed t s (msg :: rest) =
      ((process_message M env closed t s msg).1 ++
        (drain M env closed t (process_message M env closed t s msg).2 rest).1,
       (drain M env closed t (process_message M env closed t s msg).2 rest).2) := rfl

theorem drain_nextEntity_mono (M : RemoteMethods) (env : HandlerEnv)
    (closed : Nat → Bool) (t : Nat) (msgs : List BrpMessage) :
    ∀ s : TickState, s.nextEntity ≤ (drain M env closed t s msgs).2.nextEntity := by
  induction msgs with
  | nil => intro s; simp [drain]
  | cons msg rest ih =>
    intro s
    rw [drain_cons]
    exact le_trans (process_message_nextEntity_mono M env closed t s msg)
      (ih (process_message M env closed t s msg).2)

theorem drain_mem_mono (M : RemoteMethods) (env : HandlerEnv) (closed : Nat → Bool)
    (t : Nat) (msgs : List BrpMessage) :
    ∀ (s : TickState) (r : ActiveStream), r ∈ s.streams →
      r ∈ (drain M env closed t s msgs).2.streams := by
  induction msgs with
  | nil => intro s r h; simpa [drain] using h
  | cons msg rest ih =>
    intro s r h
    rw [drain_cons]
    refine ih _ r ?_
    rcases process_message_state M env closed t s msg with hp | ⟨sys, hp⟩ <;> rw [hp]
    · exact h
    · exact List.mem_append.mpr (Or.inl h)

theorem drain_mem_src (M : RemoteMethods) (env : HandlerEnv) (closed : Nat → Bool)
    (t : Nat) (msgs : List BrpMessage) :
    ∀ (s : TickState) (r : ActiveStream),
      r ∈ (drain M env closed t s msgs).2.streams →
      r ∈ s.streams ∨ s.nextEntity ≤ r.entity := by
  induction msgs with
  | nil => intro s r h; exact Or.inl (by simpa [drain] using h)
  | cons msg rest ih =>
    intro s r h
    rw [drain_cons] at h
    rcases ih (process_message M env closed t s msg).2 r h with h1 | h1
    · rcases process_message_state M env closed t s msg with hp | ⟨sys, hp⟩
      · rw [hp] at h1
        exact Or.inl h1
      · rw [hp] at h1
        rcases List.mem_append.mp h1 with h2 | h2
        · exact Or.inl h2
        · simp at h2
          subst h2
          exact Or.inr (le_refl _)
    · exact Or.inr (le_trans (process_message_nextEntity_mono M env closed t s msg) h1)

theorem WF_spawn (s : TickState) (msg : BrpMessage) (sys : Nat) (h : WF s) :
    WF ⟨s.nextEntity + 1, s.streams ++ [⟨s.nextEntity, msg, sys⟩]⟩ := by
  obtain ⟨hb, hn⟩ := h
  constructor
  · intro r hr
    rcases List.mem_append.mp hr with hr | hr
    · exact Nat.lt_succ_of_lt (hb r hr)
    · simp at hr
      subst hr
      simp
  · simp only [List.map_append, List.map_cons, List.map_nil]
    rw [List.nodup_append]
    refine ⟨hn, List.nodup_singleton _, ?_⟩
    intro e he he'
    simp at he'
    rcases List.mem_map.mp he with ⟨r, hr, hre⟩
    have := hb r hr
    omega

theorem drain_WF (M : RemoteMethods) (env : HandlerEnv) (closed : Nat → Bool)
    (t : Nat) (msgs : List BrpMessage) :
    ∀ s : TickState, WF s → WF (drain M env closed t s msgs).2 := by
  induction msgs with
  | nil => intro s h; simpa [drain] using h
  | cons msg rest ih =>
    intro s h
    rw [drain_cons]
    refine ih _ ?_
    rcases process_message_state M env closed t s msg with hp | ⟨sys, hp⟩ <;> rw [hp]
    · exact h
    · exact WF_spawn s msg sys h

theorem mem_drain_events (M : RemoteMethods) (env : HandlerEnv) (closed : Nat → Bool)
    (t : Nat) (msgs : List BrpMessage) :
    ∀ (s : TickState) (ev : Event), ev ∈ (drain M env closed t s msgs).1 →
      (∃ ch v, ev = .sent ch v) ∨ (∃ ch v, ev = .sendFailed ch v) ∨
        ∃ e, ev = .spawned e := by
  induction msgs with
  | nil => intro s ev h; simp [drain] at h
  | cons msg rest ih =>
    intro s ev h
    rw [drain_cons] at h
    rcases List.mem_append.mp h with h | h
    · rcases mem_process_message_events M env closed t s msg ev h with
        ⟨v, hv⟩ | ⟨v, hv⟩ | hv
      · exact Or.inl ⟨_, v, hv⟩
      · exact Or.inr (Or.inl ⟨_, v, hv⟩)
      · exact Or.inr (Or.inr ⟨_, hv⟩)
    · exact ih _ ev h

/-! Section: Dispatcher lemmas: the poll pass -/

theorem poll_stream_removes (env : HandlerEnv) (closed : Nat → Bool) (t : Nat)
    (rec : ActiveStream) :
    (poll_stream env closed t rec).2 = terminalB env closed rec t := by
  rcases h : env.runStream rec.sys rec.message.params t with e | o
  · simp [poll_stream, terminalB, h]
  · rcases o with _ | r <;> simp [poll_stream, terminalB, h]

theorem mem_poll_stream_events (env : HandlerEnv) (closed : Nat → Bool) (t : Nat)
    (rec : ActiveStream) (ev : Event)
    (hev : ev ∈ (poll_stream env closed t rec).1) :
    ev = .invoked rec.entity rec.sys ∨ (∃ v, ev = .sent rec.message.channel v) ∨
      ∃ v, ev = .sendFailed rec.message.channel v := by
  unfold poll_stream at hev
  split at hev <;> simp at hev
  · rcases hev with hev | hev
    · exact Or.inl hev
    · subst hev
      rcases send_blocking_cases closed rec.message.channel _ with h | h
      · exact Or.inr (Or.inl ⟨_, h⟩)
      · exact Or.inr (Or.inr ⟨_, h⟩)
  · exact Or.inl hev
  · rcases hev with hev | hev
    · exact Or.inl hev
    · subst hev
      rcases send_blocking_cases closed rec.message.channel _ with h | h
      · exact Or.inr (Or.inl ⟨_, h⟩)
      · exact Or.inr (Or.inr ⟨_, h⟩)

theorem poll_stream_invoked_head (env : HandlerEnv) (closed : Nat → Bool) (t : Nat)
    (rec : ActiveStream) :
    Event.invoked rec.entity rec.sys ∈ (poll_stream env closed t rec).1 := by
  unfold poll_stream
  split <;> simp

theorem invoked_mem_poll_stream (env : HandlerEnv) (closed : Nat → Bool) (t : Nat)
    (rec : ActiveStream) (e k : Nat)
    (h : Event.invoked e k ∈ (poll_stream env closed t rec).1) :
    rec.entity = e ∧ rec.sys = k := by
  rcases mem_poll_stream_events env closed t rec _ h with h1 | ⟨v, h1⟩ | ⟨v, h1⟩
  · have := h1
    simp [Event.invoked.injEq] at this
    exact ⟨this.1.symm, this.2.symm⟩
  · simp at h1
  · simp at h1

theorem mem_pollEvents (env : HandlerEnv) (closed : Nat → Bool) (t : Nat)
    (streams : List ActiveStream) (ev : Event) :
    ev ∈ pollEvents env closed t streams ↔
      ∃ rec ∈ streams, ev ∈ (poll_stream env closed t rec).1 := by
  simp [pollEvents, List.mem_flatten]

theorem mem_pollRemovals (env : HandlerEnv) (closed : Nat → Bool) (t : Nat)
    (streams : List ActiveStream) (e : Nat) :
    e ∈ pollRemovals env closed t streams ↔
      ∃ rec ∈ streams, rec.entity = e ∧ (poll_stream env closed t rec).2 = true := by
  simp only [pollRemovals, List.mem_filterMap]
  constructor
  · rintro ⟨rec, hm, hif⟩
    by_cases hp : (poll_stream env closed t rec).2 = true
    · rw [if_pos hp] at hif
      exact ⟨rec, hm, by injection hif, hp⟩
    · rw [if_neg hp] at hif
      exact absurd hif (by simp)
  · rintro ⟨rec, hm, he, hp⟩
    exact ⟨rec, hm, by rw [if_pos hp, he]⟩

/-! Section: Dispatcher lemmas: one whole tick -/

theorem step_state_eq (M : RemoteMethods) (env : HandlerEnv) (closed : Nat → Bool)
    (t : Nat) (incoming : List BrpMessage) (s : TickState) :
    (process_remote_requests M env closed t incoming s).2 =
      ⟨(drain M env closed t s incoming).2.nextEntity,
       (drain M env closed t s incoming).2.streams.filter fun rec =>
         !(pollRemovals env closed t (drain M env closed t s incoming).2.streams).contains
           rec.entity⟩ := rfl

theorem step_events_eq (M : RemoteMethods) (env : HandlerEnv) (closed : Nat → Bool)
    (t : Nat) (incoming : List BrpMessage) (s : TickState) :
    (process_remote_requests M env closed t incoming s).1 =
      (drain M env closed t s incoming).1 ++
        pollEvents env closed t (drain M env closed t s incoming).2.streams ++
        (pollRemovals env closed t (drain M env closed t s incoming).2.streams).map
          Event.removed := rfl

theorem step_WF (M : RemoteMethods) (env : HandlerEnv) (closed : Nat → Bool)
    (t : Nat) (incoming : List BrpMessage) (s : TickState) (hWF : WF s) :
    WF (process_remote_requests M env closed t incoming s).2 := by
  obtain ⟨hb, hn⟩ := drain_WF M env closed t incoming s hWF
  rw [step_state_eq]
  constructor
  · intro r hr
    exact hb r (List.mem_of_mem_filter hr)
  · exact hn.sublist (List.Sublist.map _ (List.filter_sublist _))

theorem step_nextEntity_mono (M : RemoteMethods) (env : HandlerEnv)
    (closed : Nat → Bool) (t : Nat) (incoming : List BrpMessage) (s : TickState) :
    s.nextEntity ≤ (process_remote_requests M env closed t incoming s).2.nextEntity := by
  rw [step_state_eq]
  exact drain_nextEntity_mono M env closed t incoming s

theorem drain_UniqueFor (M : RemoteMethods) (env : HandlerEnv) (closed : Nat → Bool)
    (t : Nat) (incoming : List BrpMessage) (s : TickState) (rec : ActiveStream)
    (hu : UniqueFor s rec) (hlt : rec.entity < s.nextEntity) :
    UniqueFor (drain M env closed t s incoming).2 rec := by
  intro r hr hre
  rcases drain_mem_src M env closed t incoming s r hr with h | h
  · exact hu r h hre
  · rw [hre] at h
    omega

theorem step_UniqueFor (M : RemoteMethods) (env : HandlerEnv) (closed : Nat → Bool)
    (t : Nat) (incoming : List BrpMessage) (s : TickState) (rec : ActiveStream)
    (hu : UniqueFor s rec) (hlt : rec.entity < s.nextEntity) :
    UniqueFor (process_remote_requests M env closed t incoming s).2 rec := by
  intro r hr hre
  rw [step_state_eq] at hr
  exact drain_UniqueFor M env closed t incoming s rec hu hlt r
    (List.mem_of_mem_filter hr) hre

theorem drain_mem_iff (M : RemoteMethods) (env : HandlerEnv) (closed : Nat → Bool)
    (t : Nat) (incoming : List BrpMessage) (s : TickState) (rec : ActiveStream)
    (hlt : rec.entity < s.nextEntity) :
    rec ∈ (drain M env closed t s incoming).2.streams ↔ rec ∈ s.streams := by
  constructor
  · intro h
    rcases drain_mem_src M env closed t incoming s rec h with h | h
    · exact h
    · omega
  · exact drain_mem_mono M env closed t incoming s rec

theorem step_mem_iff (M : RemoteMethods) (env : HandlerEnv) (closed : Nat → Bool)
    (t : Nat) (incoming : List BrpMessage) (s : TickState) (rec : ActiveStream)
    (hu : UniqueFor s rec) (hlt : rec.entity < s.nextEntity) :
    rec ∈ (process_remote_requests M env closed t incoming s).2.streams ↔
      (rec ∈ s.streams ∧ terminalB env closed rec t = false) := by
  have hud := drain_UniqueFor M env closed t incoming s rec hu hlt
  have hds := drain_mem_iff M env closed t incoming s rec hlt
  rw [step_state_eq]
  simp only [List.mem_filter, Bool.not_eq_eq_eq_not, Bool.not_true,
    TickState.streams]
  constructor
  · rintro ⟨hmem, hcon⟩
    refine ⟨hds.mp hmem, ?_⟩
    by_contra hterm
    have hterm' : terminalB env closed rec t = true := by
      revert hterm
      cases terminalB env closed rec t <;> simp
    have hrm : rec.entity ∈ pollRemovals env closed t
        (drain M env closed t s incoming).2.streams :=
      (mem_pollRemovals env closed t _ rec.entity).mpr
        ⟨rec, hmem, rfl, by rw [poll_stream_removes]; exact hterm'⟩
    have hcon' : rec.entity ∉ pollRemovals env closed t
        (drain M env closed t s incoming).2.streams := by simpa using hcon
    exact hcon' hrm
  · rintro ⟨hmem, hterm⟩
    refine ⟨hds.mpr hmem, ?_⟩
    suffices h : rec.entity ∉ pollRemovals env closed t
        (drain M env closed t s incoming).2.streams by simpa using h
    intro hcon
    rcases (mem_pollRemovals env closed t _ rec.entity).mp hcon with ⟨r, hr, hre, hp⟩
    have : r = rec := hud r hr hre
    subst this
    rw [poll_stream_removes] at hp
    rw [hp] at hterm
    exact absurd hterm (by simp)

theorem step_invoked_iff (M : RemoteMethods) (env : HandlerEnv) (closed : Nat → Bool)
    (t : Nat) (incoming : List BrpMessage) (s : TickState) (rec : ActiveStream)
    (hu : UniqueFor s rec) (hlt : rec.entity < s.nextEntity) :
    Event.invoked rec.entity rec.sys ∈ (process_remote_requests M env closed t incoming s).1 ↔
      rec ∈ s.streams := by
  have hud := drain_UniqueFor M env closed t incoming s rec hu hlt
  have hds := drain_mem_iff M env closed t incoming s rec hlt
  rw [step_events_eq]
  simp only [List.mem_append]
  constructor
  · rintro ((h | h) | h)
    · rcases mem_drain_events M env closed t incoming s _ h with
        ⟨ch, v, hv⟩ | ⟨ch, v, hv⟩ | ⟨e, hv⟩ <;> simp at hv
    · rcases (mem_pollEvents env closed t _ _).mp h with ⟨r, hr, hin⟩
      obtain ⟨hre, hrs⟩ := invoked_mem_poll_stream env closed t r _ _ hin
      have : r = rec := hud r hr hre
      subst this
      exact hds.mp hr
    · rcases List.mem_map.mp h with ⟨e, _, hv⟩
      simp at hv
  · intro hm
    exact Or.inl (Or.inr ((mem_pollEvents env closed t _ _).mpr
      ⟨rec, hds.mpr hm, poll_stream_invoked_head env closed t rec⟩))

theorem step_removed_iff (M : RemoteMethods) (env : HandlerEnv) (closed : Nat → Bool)
    (t : Nat) (incoming : List BrpMessage) (s : TickState) (rec : ActiveStream)
    (hu : UniqueFor s rec) (hlt : rec.entity < s.nextEntity) :
    Event.removed rec.entity ∈ (process_remote_requests M env closed t incoming s).1 ↔
      (rec ∈ s.streams ∧ terminalB env closed rec t = true) := by
  have hud := drain_UniqueFor M env closed t incoming s rec hu hlt
  have hds := drain_mem_iff M env closed t incoming s rec hlt
  rw [step_events_eq]
  simp only [List.mem_append]
  constructor
  · rintro ((h | h) | h)
    · rcases mem_drain_events M env closed t incoming s _ h with
        ⟨ch, v, hv⟩ | ⟨ch, v, hv⟩ | ⟨e, hv⟩ <;> simp at hv
    · rcases (mem_pollEvents env closed t _ _).mp h with ⟨r, hr, hin⟩
      rcases mem_poll_stream_events env closed t r _ hin with h1 | ⟨v, h1⟩ | ⟨v, h1⟩ <;>
        simp at h1
    · rcases List.mem_map.mp h with ⟨e, he, hv⟩
      have : e = rec.entity := by
        simpa [Event.removed.injEq] using hv
      subst this
      rcases (mem_pollRemovals env closed t _ _).mp he with ⟨r, hr, hre, hp⟩
      have : r = rec := hud r hr hre
      subst this
      rw [poll_stream_removes] at hp
      exact ⟨hds.mp hr, hp⟩
  · rintro ⟨hm, hterm⟩
    refine Or.inr (List.mem_map.mpr ⟨rec.entity, ?_, rfl⟩)
    exact (mem_pollRemovals env closed t _ _).mpr
      ⟨rec, hds.mpr hm, rfl, by rw [poll_stream_removes]; exact hterm⟩

/-! Section: Run-level facts -/

theorem aliveUpTo_succ_iff (env : HandlerEnv) (sch : Schedule) (rec : ActiveStream)
    (t : Nat) :
    aliveUpTo env sch rec (t + 1) ↔
      (aliveUpTo env sch rec t ∧ terminalB env (sch.closed t) rec t = false) := by
  constructor
  · intro h
    exact ⟨fun u hu => h u (Nat.lt_succ_of_lt hu), h t (Nat.lt_succ_self t)⟩
  · rintro ⟨h1, h2⟩ u hu
    rcases Nat.lt_succ_iff_lt_or_eq.mp hu with hu | hu
    · exact h1 u hu
    · subst hu
      exact h2

theorem run_invariant (M : RemoteMethods) (env : HandlerEnv) (sch : Schedule)
    (s₀ : TickState) (rec : ActiveStream) (hWF : WF s₀) (hmem : rec ∈ s₀.streams) :
    ∀ t, WF (runFrom M env sch s₀ t) ∧
      rec.entity < (runFrom M env sch s₀ t).nextEntity ∧
      UniqueFor (runFrom M env sch s₀ t) rec ∧
      (rec ∈ (runFrom M env sch s₀ t).streams ↔ aliveUpTo env sch rec t) := by
  have hlt0 : rec.entity < s₀.nextEntity := hWF.1 rec hmem
  have hu0 : UniqueFor s₀ rec := fun r hr hre =>
    List.inj_on_of_nodup_map hWF.2 hr hmem hre
  intro t
  induction t with
  | zero =>
    refine ⟨hWF, hlt0, hu0, ?_⟩
    constructor
    · intro _ u hu
      exact absurd hu (Nat.not_lt_zero u)
    · intro _
      exact hmem
  | succ t ih =>
    obtain ⟨ihWF, ihlt, ihu, ihalive⟩ := ih
    refine ⟨step_WF _ _ _ _ _ _ ihWF,
      lt_of_lt_of_le ihlt (step_nextEntity_mono _ _ _ _ _ _),
      step_UniqueFor _ _ _ _ _ _ _ ihu ihlt, ?_⟩
    show rec ∈ (process_remote_requests M env (sch.closed t) t (sch.incoming t)
        (runFrom M env sch s₀ t)).2.streams ↔ _
    rw [step_mem_iff M env (sch.closed t) t (sch.incoming t) _ rec ihu ihlt,
      ihalive, ← aliveUpTo_succ_iff]

/-- C3: a subscription record present in the registry is removed exactly
on the first tick at which a terminal condition occurs (the handler
faults, yields an error, or yields a result whose delivery fails because
the channel is closed); its handler is invoked exactly on the ticks up to
and including that first terminal tick — never again after removal; and a
tick on which the handler yields nothing invokes it, sends nothing, and
keeps the record. -/
theorem subscription_removed_once_at_first_terminal (M : RemoteMethods)
    (env : HandlerEnv) (sch : Schedule) (s₀ : TickState) (rec : ActiveStream)
    (hWF : WF s₀) (hmem : rec ∈ s₀.streams) :
    (∀ t, Event.removed rec.entity ∈ tickEvents M env sch s₀ t ↔
      (terminalB env (sch.closed t) rec t = true ∧ aliveUpTo env sch rec t)) ∧
    (∀ t, Event.invoked rec.entity rec.sys ∈ tickEvents M env sch s₀ t ↔
      aliveUpTo env sch rec t) ∧
    (∀ t, env.runStream rec.sys rec.message.params t = .ok none →
      poll_stream env (sch.closed t) t rec = ([Event.invoked rec.entity rec.sys], false)) := by
  refine ⟨?_, ?_, ?_⟩
  · intro t
    obtain ⟨hWFt, hltt, hut, halivet⟩ := run_invariant M env sch s₀ rec hWF hmem t
    show Event.removed rec.entity ∈ (process_remote_requests M env (sch.closed t) t
        (sch.incoming t) (runFrom M env sch s₀ t)).1 ↔ _
    rw [step_removed_iff M env (sch.closed t) t (sch.incoming t) _ rec hut hltt,
      halivet]
    exact and_comm
  · intro t
    obtain ⟨hWFt, hltt, hut, halivet⟩ := run_invariant M env sch s₀ rec hWF hmem t
    show Event.invoked rec.entity rec.sys ∈ (process_remote_requests M env (sch.closed t) t
        (sch.incoming t) (runFrom M env sch s₀ t)).1 ↔ _
    rw [step_invoked_iff M env (sch.closed t) t (sch.incoming t) _ rec hut hltt,
      halivet]
  · intro t h
    simp [poll_stream, h]

/-- Witness for C3: with a streaming handler that yields nothing at tick 0
and faults at tick 1, the record is removed at tick 1 and its handler is
not invoked at tick 2. -/
theorem subscription_removed_once_at_first_terminal_witness :
    Event.removed 0 ∈ tickEvents emptyMethods c3env c3sch c3state 1 ∧
    Event.invoked 0 5 ∉ tickEvents emptyMethods c3env c3sch c3state 2 := by
  have hwf : WF c3state := by
    constructor
    · intro r hr
      have : r = c3rec := List.mem_singleton.mp hr
      subst this
      decide
    · decide
  have h := subscription_removed_once_at_first_terminal emptyMethods c3env c3sch
    c3state c3rec hwf (List.mem_singleton.mpr rfl)
  constructor
  · exact (h.1 1).mpr ⟨by decide, by
      intro u hu
      have : u = 0 := Nat.lt_one_iff.mp hu
      subst this
      decide⟩
  · intro hmem2
    have := (h.2.1 2).mp hmem2 1 (by omega)
    exact absurd this (by decide)

/-! Section: Once-per-tick invocation counting -/

theorem countP_invoked_poll_stream (env : HandlerEnv) (closed : Nat → Bool) (t : Nat)
    (rec : ActiveStream) (e k : Nat) :
    (poll_stream env closed t rec).1.countP (Event.isInvokedOf e k) =
      if rec.entity = e ∧ rec.sys = k then 1 else 0 := by
  have hsend : ∀ v, Event.isInvokedOf e k (send_blocking closed rec.message.channel v) =
      false := by
    intro v
    rcases send_blocking_cases closed rec.message.channel v with h | h <;>
      rw [h] <;> rfl
  have hcond : (Event.isInvokedOf e k (.invoked rec.entity rec.sys) = true) ↔
      (rec.entity = e ∧ rec.sys = k) := by
    simp [Event.isInvokedOf]
  have hmain : (poll_stream env closed t rec).1.countP (Event.isInvokedOf e k) =
      if Event.isInvokedOf e k (.invoked rec.entity rec.sys) = true then 1 else 0 := by
    rcases h : env.runStream rec.sys rec.message.params t with err | o
    · simp only [poll_stream, h, List.countP_cons, List.countP_nil, hsend]
      simp
    · rcases o with _ | r
      · simp only [poll_stream, h, List.countP_cons, List.countP_nil]
        simp
      · simp only [poll_stream, h, List.countP_cons, List.countP_nil, hsend]
        simp
  rw [hmain]
  by_cases he : rec.entity = e ∧ rec.sys = k
  · rw [if_pos (hcond.mpr he), if_pos he]
  · rw [if_neg (fun hh => he (hcond.mp hh)), if_neg he]

theorem sum_countP_invoked (env : HandlerEnv) (closed : Nat → Bool) (t : Nat) :
    ∀ (l : List ActiveStream) (rec : ActiveStream),
      (l.map ActiveStream.entity).Nodup → rec ∈ l →
      ((l.map fun r => (poll_stream env closed t r).1.countP
        (Event.isInvokedOf rec.entity rec.sys)).sum) = 1 := by
  intro l
  induction l with
  | nil =>
    intro rec _ hm
    simp at hm
  | cons a l ih =>
    intro rec hn hm
    simp only [List.map_cons, List.sum_cons]
    have hn' := hn
    rw [List.map_cons] at hn'
    have hhead := (List.nodup_cons.mp hn').1
    have htail := (List.nodup_cons.mp hn').2
    rcases List.mem_cons.mp hm with rfl | hm'
    · rw [countP_invoked_poll_stream, if_pos ⟨rfl, rfl⟩]
      have hz : (l.map fun r => (poll_stream env closed t r).1.countP
          (Event.isInvokedOf rec.entity rec.sys)).sum = 0 := by
        apply List.sum_eq_zero
        intro x hx
        rcases List.mem_map.mp hx with ⟨r, hr, rfl⟩
        rw [countP_invoked_poll_stream, if_neg]
        rintro ⟨h1, h2⟩
        exact hhead (h1 ▸ List.mem_map_of_mem ActiveStream.entity hr)
      rw [hz]
    · have ha : (poll_stream env closed t a).1.countP
          (Event.isInvokedOf rec.entity rec.sys) = 0 := by
        rw [countP_invoked_poll_stream, if_neg]
        rintro ⟨h1, h2⟩
        exact hhead (h1.symm ▸ List.mem_map_of_mem ActiveStream.entity hm')
      rw [ha, ih rec htail hm']

/-- C4: a drained command message resolving to a streaming handler makes
the dispatcher create and store a subscription record with no result
pushed during the drain pass; every subscription live after the drain —
including those just created — has its handler invoked exactly once in
that tick; and in the concrete scenario where the one streaming handler
yields nothing on the first two ticks and a success on the third, exactly
one result is sent on the response channel, on the third tick. -/
theorem streaming_dispatch_and_once_per_tick :
    (∀ (M : RemoteMethods) (env : HandlerEnv) (closed : Nat → Bool) (t : Nat)
      (s : TickState) (msg : BrpMessage) (sys : Nat),
      M.get msg.method = some (.stream sys) →
      process_message M env closed t s msg =
        ([Event.spawned s.nextEntity],
         ⟨s.nextEntity + 1, s.streams ++ [⟨s.nextEntity, msg, sys⟩]⟩)) ∧
    (∀ (M : RemoteMethods) (env : HandlerEnv) (closed : Nat → Bool) (t : Nat)
      (incoming : List BrpMessage) (s : TickState) (rec : ActiveStream),
      WF s → rec ∈ (drain M env closed t s incoming).2.streams →
      (process_remote_requests M env closed t incoming s).1.countP
        (Event.isInvokedOf rec.entity rec.sys) = 1) ∧
    ((tickEvents (singleStreamMethods "watch" 7) watchEnv watchSchedule emptyState 0).filterMap
        (Event.deliveredTo 9) = [] ∧
     (tickEvents (singleStreamMethods "watch" 7) watchEnv watchSchedule emptyState 1).filterMap
        (Event.deliveredTo 9) = [] ∧
     (tickEvents (singleStreamMethods "watch" 7) watchEnv watchSchedule emptyState 2).filterMap
        (Event.deliveredTo 9) = [.ok (.str "v")]) := by
  refine ⟨?_, ?_, rfl, rfl, rfl⟩
  · intro M env closed t s msg sys hstream
    exact process_message_stream M env closed t s msg sys hstream
  · intro M env closed t incoming s rec hWF hrec
    have hdWF := drain_WF M env closed t incoming s hWF
    rw [step_events_eq, List.countP_append, List.countP_append]
    have h1 : (drain M env closed t s incoming).1.countP
        (Event.isInvokedOf rec.entity rec.sys) = 0 := by
      rw [List.countP_eq_zero]
      intro ev hev
      rcases mem_drain_events M env closed t incoming s ev hev with
        ⟨ch, v, rfl⟩ | ⟨ch, v, rfl⟩ | ⟨e, rfl⟩ <;> simp [Event.isInvokedOf]
    have h3 : ((pollRemovals env closed t
        (drain M env closed t s incoming).2.streams).map Event.removed).countP
        (Event.isInvokedOf rec.entity rec.sys) = 0 := by
      rw [List.countP_eq_zero]
      intro ev hev
      rcases List.mem_map.mp hev with ⟨e, _, rfl⟩
      simp [Event.isInvokedOf]
    have h2 : (pollEvents env closed t
        (drain M env closed t s incoming).2.streams).countP
        (Event.isInvokedOf rec.entity rec.sys) = 1 := by
      unfold pollEvents
      rw [List.countP_flatten, List.map_map]
      exact sum_countP_invoked env closed t _ rec hdWF.2 hrec
    rw [h1, h2, h3]

/-- Witness for C4: dispatching the `"watch"` message spawns a record and
pushes nothing, and the record created by the drain pass is invoked
exactly once within the same tick. -/
theorem streaming_dispatch_and_once_per_tick_witness :
    process_message (singleStreamMethods "watch" 7) watchEnv noChannelsClosed 0
      emptyState watchMsg =
      ([Event.spawned 0], ⟨1, [⟨0, watchMsg, 7⟩]⟩) ∧
    (process_remote_requests (singleStreamMethods "watch" 7) watchEnv noChannelsClosed
      0 [watchMsg] emptyState).1.countP (Event.isInvokedOf 0 7) = 1 := by
  constructor
  · exact (streaming_dispatch_and_once_per_tick.1 (singleStreamMethods "watch" 7)
      watchEnv noChannelsClosed 0 emptyState watchMsg 7 rfl).trans rfl
  · have h := streaming_dispatch_and_once_per_tick.2.1 (singleStreamMethods "watch" 7)
      watchEnv noChannelsClosed 0 [watchMsg] emptyState ⟨0, watchMsg, 7⟩
      (by constructor
          · intro r hr
            simp [emptyState] at hr
          · decide)
      (by rw [show (drain (singleStreamMethods "watch" 7) watchEnv noChannelsClosed 0
            emptyState [watchMsg]).2.streams = [⟨0, watchMsg, 7⟩] from rfl]
          exact List.mem_singleton.mpr rfl)
    exact h

/-! Section: Single-subscription runs (HTTP streaming calls) -/

theorem step_no_incoming_empty (M : RemoteMethods) (env : HandlerEnv)
    (closed : Nat → Bool) (t : Nat) (next : Nat) :
    process_remote_requests M env closed t [] ⟨next, []⟩ = ([], ⟨next, []⟩) := by
  simp [process_remote_requests, drain, pollEvents, pollRemovals]

theorem step_no_incoming_singleton (M : RemoteMethods) (env : HandlerEnv)
    (closed : Nat → Bool) (t : Nat) (next : Nat) (rec : ActiveStream) :
    process_remote_requests M env closed t [] ⟨next, [rec]⟩ =
      ((poll_stream env closed t rec).1 ++
        (if (poll_stream env closed t rec).2 then [Event.removed rec.entity] else []),
       ⟨next, if (poll_stream env closed t rec).2 then [] else [rec]⟩) := by
  by_cases h : (poll_stream env closed t rec).2 <;>
    simp [process_remote_requests, drain, pollEvents, pollRemovals, h]

theorem deliveredTo_poll_none (env : HandlerEnv) (closed : Nat → Bool) (t : Nat)
    (rec : ActiveStream) (ch : Nat)
    (h : env.runStream rec.sys rec.message.params t = .ok none) :
    (poll_stream env closed t rec).1.filterMap (Event.deliveredTo ch) = [] := by
  simp [poll_stream, h, Event.deliveredTo]

theorem deliveredTo_poll_closed (env : HandlerEnv) (closed : Nat → Bool) (t : Nat)
    (rec : ActiveStream) (ch : Nat) (hc : closed rec.message.channel = true) :
    (poll_stream env closed t rec).1.filterMap (Event.deliveredTo ch) = [] := by
  rcases h : env.runStream rec.sys rec.message.params t with err | o
  · simp [poll_stream, h, send_blocking, hc, Event.deliveredTo]
  · rcases o with _ | r <;> simp [poll_stream, h, send_blocking, hc, Event.deliveredTo]

theorem deliveredTo_poll_some_open (env : HandlerEnv) (closed : Nat → Bool) (t : Nat)
    (rec : ActiveStream) (v : BrpResult) (ch : Nat)
    (h : env.runStream rec.sys rec.message.params t = .ok (some v))
    (hch : rec.message.channel = ch) (hc : closed ch = false) :
    (poll_stream env closed t rec).1.filterMap (Event.deliveredTo ch) = [v] := by
  subst hch
  simp [poll_stream, h, send_blocking, hc, Event.deliveredTo]

theorem pollEvents_singleton (env : HandlerEnv) (closed : Nat → Bool) (t : Nat)
    (rec : ActiveStream) :
    pollEvents env closed t [rec] = (poll_stream env closed t rec).1 := by
  simp [pollEvents]

theorem deliveredTo_removed_if (ch : Nat) (b : Bool) (e : Nat) :
    (if b then [Event.removed e] else []).filterMap (Event.deliveredTo ch) = [] := by
  cases b <;> simp [Event.deliveredTo]

theorem deliveredTo_removed_map (ch : Nat) (l : List Nat) :
    (l.map Event.removed).filterMap (Event.deliveredTo ch) = [] := by
  induction l with
  | nil => rfl
  | cons e l ih => simp [Event.deliveredTo, ih]

theorem runFrom_zero (M : RemoteMethods) (env : HandlerEnv) (sch : Schedule)
    (s₀ : TickState) : runFrom M env sch s₀ 0 = s₀ := rfl

theorem runFrom_succ (M : RemoteMethods) (env : HandlerEnv) (sch : Schedule)
    (s₀ : TickState) (t : Nat) :
    runFrom M env sch s₀ (t + 1) =
      (process_remote_requests M env (sch.closed t) t (sch.incoming t)
        (runFrom M env sch s₀ t)).2 := rfl

theorem tickEvents_eq (M : RemoteMethods) (env : HandlerEnv) (sch : Schedule)
    (s₀ : TickState) (t : Nat) :
    tickEvents M env sch s₀ t =
      (process_remote_requests M env (sch.closed t) t (sch.incoming t)
        (runFrom M env sch s₀ t)).1 := rfl

theorem singleStreamSchedule_incoming_zero (name : String) (p : Option Json)
    (ch T : Nat) :
    (singleStreamSchedule name p ch T).incoming 0 = [⟨name, p, ch⟩] := rfl

theorem singleStreamSchedule_incoming_pos (name : String) (p : Option Json)
    (ch T : Nat) (t : Nat) (h : t ≠ 0) :
    (singleStreamSchedule name p ch T).incoming t = [] := by
  simp [singleStreamSchedule, h]

theorem singleStreamSchedule_closed (name : String) (p : Option Json)
    (ch T : Nat) (t ch' : Nat) :
    (singleStreamSchedule name p ch T).closed t ch' = decide (T < t) := rfl

theorem singleStream_drain0 (name : String) (sys ch : Nat) (p : Option Json)
    (env : HandlerEnv) (closed : Nat → Bool) :
    drain (singleStreamMethods name sys) env closed 0 emptyState [⟨name, p, ch⟩] =
      ([Event.spawned 0], ⟨1, [⟨0, ⟨name, p, ch⟩, sys⟩]⟩) := by
  simp [drain, process_message, RemoteMethods.get, methods_get, singleStreamMethods,
    emptyState]

theorem singleStream_run_le (name : String) (sys ch T : Nat) (p : Option Json)
    (env : HandlerEnv)
    (hpre : ∀ u, u < T → env.runStream sys p u = .ok none) :
    ∀ t, 1 ≤ t → t ≤ T →
      runFrom (singleStreamMethods name sys) env (singleStreamSchedule name p ch T)
        emptyState t = ⟨1, [⟨0, ⟨name, p, ch⟩, sys⟩]⟩ := by
  intro t
  induction t with
  | zero => intro h; omega
  | succ t ih =>
    intro h1 h2
    rw [runFrom_succ]
    rcases Nat.eq_zero_or_pos t with rfl | ht
    · rw [runFrom_zero, singleStreamSchedule_incoming_zero, step_state_eq,
        singleStream_drain0]
      have hp2 : (poll_stream env ((singleStreamSchedule name p ch T).closed 0) 0
          ⟨0, ⟨name, p, ch⟩, sys⟩).2 = false := by
        simp [poll_stream, hpre 0 (by omega)]
      have hrm : pollRemovals env ((singleStreamSchedule name p ch T).closed 0) 0
          [⟨0, ⟨name, p, ch⟩, sys⟩] = [] := by
        simp [pollRemovals, hp2]
      simp [hrm]
    · rw [ih ht (by omega), singleStreamSchedule_incoming_pos name p ch T t
        (by omega), step_no_incoming_singleton]
      have hp2 : (poll_stream env ((singleStreamSchedule name p ch T).closed t) t
          ⟨0, ⟨name, p, ch⟩, sys⟩).2 = false := by
        simp [poll_stream, hpre t (by omega)]
      simp [hp2]

theorem singleStream_run_gt (name : String) (sys ch T : Nat) (p : Option Json)
    (env : HandlerEnv)
    (hpre : ∀ u, u < T → env.runStream sys p u = .ok none) :
    ∀ t, T < t →
      runFrom (singleStreamMethods name sys) env (singleStreamSchedule name p ch T)
          emptyState t = ⟨1, [⟨0, ⟨name, p, ch⟩, sys⟩]⟩ ∨
      runFrom (singleStreamMethods name sys) env (singleStreamSchedule name p ch T)
          emptyState t = ⟨1, []⟩ := by
  intro t
  induction t with
  | zero => intro h; omega
  | succ t ih =>
    intro ht
    rw [runFrom_succ]
    rcases Nat.lt_or_ge T t with h | h
    · rcases ih h with hr | hr
      · rw [hr, singleStreamSchedule_incoming_pos name p ch T t (by omega),
          step_no_incoming_singleton]
        by_cases hb : (poll_stream env ((singleStreamSchedule name p ch T).closed t) t
            ⟨0, ⟨name, p, ch⟩, sys⟩).2
        · right
          simp [hb]
        · left
          simp [hb]
      · rw [hr, singleStreamSchedule_incoming_pos name p ch T t (by omega),
          step_no_incoming_empty]
        right
        rfl
    · have hTt : t = T := by omega
      subst hTt
      rcases Nat.eq_zero_or_pos t with rfl | ht1
      · rw [runFrom_zero, singleStreamSchedule_incoming_zero, step_state_eq,
          singleStream_drain0]
        by_cases hb2 : (poll_stream env ((singleStreamSchedule name p ch 0).closed 0) 0
            ⟨0, ⟨name, p, ch⟩, sys⟩).2
        · right
          have hrm : pollRemovals env ((singleStreamSchedule name p ch 0).closed 0) 0
              [⟨0, ⟨name, p, ch⟩, sys⟩] = [0] := by
            simp [pollRemovals, hb2]
          simp [hrm]
        · left
          have hrm : pollRemovals env ((singleStreamSchedule name p ch 0).closed 0) 0
              [⟨0, ⟨name, p, ch⟩, sys⟩] = [] := by
            simp [pollRemovals, hb2]
          simp [hrm]
      · rw [singleStream_run_le name sys ch t p env hpre t ht1 (le_refl t),
          singleStreamSchedule_incoming_pos name p ch t t (by omega),
          step_no_incoming_singleton]
        by_cases hb : (poll_stream env ((singleStreamSchedule name p ch t).closed t) t
            ⟨0, ⟨name, p, ch⟩, sys⟩).2
        · right
          simp [hb]
        · left
          simp [hb]


/-- C10: a plain-HTTP command message resolving to a streaming handler has
nothing pushed on its response channel during the drain pass, only a
subscription record stored; in the single-subscription run whose response
channel closes right after the first yield is delivered (the single-slot
HTTP receiver takes one value and is dropped), the successful sends on
that channel are exactly one — the first value the streaming handler
yields, on the tick it first yields; and the response envelope the HTTP
task assembles from the one received value echoes the request's id around
that value. -/
theorem http_streaming_first_yield_delivered :
    (∀ (M : RemoteMethods) (env : HandlerEnv) (closed : Nat → Bool) (t : Nat)
      (s : TickState) (msg : BrpMessage) (sys : Nat),
      M.get msg.method = some (.stream sys) →
      (process_message M env closed t s msg).1.filterMap
        (Event.deliveredTo msg.channel) = [] ∧
      (process_message M env closed t s msg).2.streams =
        s.streams ++ [⟨s.nextEntity, msg, sys⟩]) ∧
    (∀ (name : String) (sys ch T : Nat) (p : Option Json) (v : BrpResult)
      (env : HandlerEnv),
      env.runStream sys p T = .ok (some v) →
      (∀ u, u < T → env.runStream sys p u = .ok none) →
      ∀ n, (tickEvents (singleStreamMethods name sys) env
          (singleStreamSchedule name p ch T) emptyState n).filterMap
          (Event.deliveredTo ch) = if n = T then [v] else []) ∧
    (∀ (j : Json) (req : BrpRequest) (r : BrpResult),
      parse_brp_request j = .ok req → req.jsonrpc = "2.0" →
      (process_single_request (fun _ _ => r) j).response = BrpResponse.new req.id r) := by
  refine ⟨?_, ?_, ?_⟩
  · intro M env closed t s msg sys hstream
    rw [process_message_stream M env closed t s msg sys hstream]
    exact ⟨by simp [Event.deliveredTo], rfl⟩
  · intro name sys ch T p v env hT hpre n
    rcases Nat.lt_trichotomy n T with hn | rfl | hn
    · rw [if_neg (by omega)]
      rcases Nat.eq_zero_or_pos n with rfl | hn1
      · have hd1 : (drain (singleStreamMethods name sys) env
            ((singleStreamSchedule name p ch T).closed 0) 0 emptyState
            [⟨name, p, ch⟩]).1 = [Event.spawned 0] := by
          rw [singleStream_drain0]
        have hd2 : (drain (singleStreamMethods name sys) env
            ((singleStreamSchedule name p ch T).closed 0) 0 emptyState
            [⟨name, p, ch⟩]).2.streams = [⟨0, ⟨name, p, ch⟩, sys⟩] := by
          rw [singleStream_drain0]
        rw [tickEvents_eq, runFrom_zero, singleStreamSchedule_incoming_zero,
          step_events_eq, hd1, hd2, pollEvents_singleton, List.filterMap_append,
          List.filterMap_append, deliveredTo_removed_map,
          deliveredTo_poll_none env _ 0 _ ch (hpre 0 hn)]
        simp [Event.deliveredTo]
      · rw [tickEvents_eq,
          singleStream_run_le name sys ch T p env hpre n hn1 (le_of_lt hn),
          singleStreamSchedule_incoming_pos name p ch T n (by omega),
          step_no_incoming_singleton, List.filterMap_append,
          deliveredTo_poll_none env _ n _ ch (hpre n hn), deliveredTo_removed_if]
        rfl
    · rw [if_pos rfl]
      rcases Nat.eq_zero_or_pos n with rfl | hT1
      · have hd1 : (drain (singleStreamMethods name sys) env
            ((singleStreamSchedule name p ch 0).closed 0) 0 emptyState
            [⟨name, p, ch⟩]).1 = [Event.spawned 0] := by
          rw [singleStream_drain0]
        have hd2 : (drain (singleStreamMethods name sys) env
            ((singleStreamSchedule name p ch 0).closed 0) 0 emptyState
            [⟨name, p, ch⟩]).2.streams = [⟨0, ⟨name, p, ch⟩, sys⟩] := by
          rw [singleStream_drain0]
        rw [tickEvents_eq, runFrom_zero, singleStreamSchedule_incoming_zero,
          step_events_eq, hd1, hd2, pollEvents_singleton, List.filterMap_append,
          List.filterMap_append, deliveredTo_removed_map,
          deliveredTo_poll_some_open env _ 0 _ v ch hT rfl (by rfl)]
        simp [Event.deliveredTo]
      · rw [tickEvents_eq,
          singleStream_run_le name sys ch n p env hpre n hT1 (le_refl n),
          singleStreamSchedule_incoming_pos name p ch n n (by omega),
          step_no_incoming_singleton, List.filterMap_append,
          deliveredTo_poll_some_open env _ n _ v ch hT rfl
            (by simp [singleStreamSchedule_closed]),
          deliveredTo_removed_if]
        simp
    · rw [if_neg (by omega), tickEvents_eq]
      rcases singleStream_run_gt name sys ch T p env hpre n hn with hr | hr
      · rw [hr, singleStreamSchedule_incoming_pos name p ch T n (by omega),
          step_no_incoming_singleton, List.filterMap_append,
          deliveredTo_poll_closed env _ n _ ch
            (by simp [singleStreamSchedule_closed, hn]),
          deliveredTo_removed_if]
        rfl
      · rw [hr, singleStreamSchedule_incoming_pos name p ch T n (by omega),
          step_no_incoming_empty]
        rfl
  · intro j req r hp hv
    simp [process_single_request, hp, hv]

/-- Witness for C10: with the one streaming method yielding nothing at
tick 0 and the success `5` from tick 1 on, and the channel closing after
tick 1, the value `5` is delivered exactly at tick 1 and nothing is
delivered at tick 2. -/
theorem http_streaming_first_yield_delivered_witness :
    (tickEvents (singleStreamMethods "m" 7) c10env (singleStreamSchedule "m" none 4 1)
      emptyState 1).filterMap (Event.deliveredTo 4) = [.ok (.num 5)] ∧
    (tickEvents (singleStreamMethods "m" 7) c10env (singleStreamSchedule "m" none 4 1)
      emptyState 2).filterMap (Event.deliveredTo 4) = [] := by
  have h := http_streaming_first_yield_delivered.2.1 "m" 7 4 1 none (.ok (.num 5))
    c10env rfl (by
      intro u hu
      have : u = 0 := Nat.lt_one_iff.mp hu
      subst this
      rfl)
  constructor
  · have h1 := h 1
    rwa [if_pos rfl] at h1
  · have h2 := h 2
    rwa [if_neg (by omega)] at h2

end BevyRemote
